import Mathlib

/-!
Verification of the rogneur pan/zoom state engine against its design document.

The embedding below translates the constraint-solving core of src/index.js
into Lean. Numbers are modelled as rationals. A dimension whose width or
height is 0 plays the role of an unset measurement, matching the falsiness
test on state.original.width and state.original.height in the source.

A partial update, a JS object literal passed to setState, is modelled as a
list of field assignments in the order the caller lists the keys, because
the for-in loop of applyState visits the keys of the object in insertion
order. A JS object holds each key at most once, so lists without a repeated
field name are the ones that correspond to actual calls; every concrete
input used below is of that shape.
-/

namespace Rogneur

/-- A width/height pair, as stored in state.original and state.container. -/
structure Dim where
  width : ℚ
  height : ℚ
  deriving DecidableEq

/-- An x/y pair, as stored in state.position. -/
structure Pos where
  x : ℚ
  y : ℚ
  deriving DecidableEq

/-- The state record of a rogneur instance, src/index.js line 36. -/
structure State where
  position : Pos
  original : Dim
  container : Dim
  zoom : ℚ
  deriving DecidableEq

/-- Math.max on two numbers: the larger argument. Written with an if so that
the kernel can evaluate it on concrete rationals; equal to the lattice max,
see jsMax_eq. -/
def jsMax (a b : ℚ) : ℚ :=
  if a < b then b else a

/-- Math.min on two numbers: the smaller argument. Written with an if so that
the kernel can evaluate it on concrete rationals; equal to the lattice min,
see jsMin_eq. -/
def jsMin (a b : ℚ) : ℚ :=
  if a < b then a else b

/-- clamp, src/index.js lines 8 to 10: Math.max(Math.min(value, max), min). -/
def clamp (value lo hi : ℚ) : ℚ :=
  jsMax (jsMin value hi) lo

/-- The lower bound computed inside calcPos, src/index.js lines 179 to 183:
min is lowestValue minus overflow. -/
def calcPosMin (zoom originalSize containerSize : ℚ) : ℚ :=
  let realSize := originalSize * zoom
  let overflow := jsMax (realSize - containerSize) 0
  let lowestValue := (realSize - originalSize) / 2
  lowestValue - overflow

/-- The upper bound computed inside calcPos, src/index.js lines 179 to 186:
max is highestValue plus overflow. -/
def calcPosMax (zoom originalSize containerSize : ℚ) : ℚ :=
  let realSize := originalSize * zoom
  let overflow := jsMax (realSize - containerSize) 0
  let lowestValue := (realSize - originalSize) / 2
  let highestValue := (containerSize + lowestValue) - realSize
  highestValue + overflow

/-- calcPos, src/index.js lines 178 to 189. The source reads state.zoom from
the enclosing closure at call time; here the zoom in force at the call is
passed explicitly. -/
def calcPos (zoom pos originalSize containerSize : ℚ) : ℚ :=
  clamp pos (calcPosMin zoom originalSize containerSize)
    (calcPosMax zoom originalSize containerSize)

/-- getPosition, src/index.js lines 159 to 168: pass the requested position
through unchanged while the original size is unset, otherwise clamp each
axis with calcPos. -/
def getPosition (s : State) (pos : Pos) : Pos :=
  if s.original.width = 0 ∨ s.original.height = 0 then pos
  else
    { x := calcPos s.zoom pos.x s.original.width s.container.width
      y := calcPos s.zoom pos.y s.original.height s.container.height }

/-- The minimum zoom computed inside getZoom, src/index.js lines 201 to 213:
the larger container dimension divided by the larger image dimension. -/
def minZoom (original container : Dim) : ℚ :=
  (if container.width > container.height then container.width else container.height) /
    (if original.width > original.height then original.width else original.height)

/-- getZoom, src/index.js lines 196 to 216: pass the requested zoom through
unchanged while the original size is unset, otherwise raise it to the
minimum zoom. -/
def getZoom (s : State) (zoom : ℚ) : ℚ :=
  if s.original.width = 0 ∨ s.original.height = 0 then zoom
  else jsMax zoom (minZoom s.original s.container)

/-- One key/value entry of the object literal passed to setState. -/
inductive Field where
  | position (p : Pos)
  | original (d : Dim)
  | container (d : Dim)
  | zoom (z : ℚ)
  deriving DecidableEq

/-- Whether an entry is the position key. -/
def isPositionF : Field → Bool
  | .position _ => true
  | _ => false

/-- Whether an entry is the zoom key. -/
def isZoomF : Field → Bool
  | .zoom _ => true
  | _ => false

/-- Whether an entry is one of the two size keys. -/
def isSizeF : Field → Bool
  | .original _ => true
  | .container _ => true
  | _ => false

/-- Whether an entry is the original key. -/
def isOriginalF : Field → Bool
  | .original _ => true
  | _ => false

/-- One iteration of the for-in loop of applyState, src/index.js lines 253
to 264: position and zoom go through their state handlers, the size fields
are stored verbatim. -/
def applyField (s : State) : Field → State
  | .position p => { s with position := getPosition s p }
  | .original d => { s with original := d }
  | .container d => { s with container := d }
  | .zoom z => { s with zoom := getZoom s z }

/-- applyState, src/index.js lines 252 to 267: fold the handlers over the
entries of the update in the order the caller listed them. -/
def applyState (s : State) (newState : List Field) : State :=
  newState.foldl applyField s

/-- Whether the update object owns a zoom key: the hasOwnProperty test of
src/index.js line 233. -/
def hasZoom (newState : List Field) : Bool :=
  newState.any isZoomF

/-- Whether the update object owns a position key: the hasOwnProperty test
of src/index.js line 237. -/
def hasPosition (newState : List Field) : Bool :=
  newState.any isPositionF

/-- setState, src/index.js lines 224 to 243: apply the update, then
re-apply the stored zoom when the update did not carry one, then re-apply
the stored position when the update did not carry one. -/
def setState (s : State) (newState : List Field) : State :=
  let s1 := applyState s newState
  let s2 := if hasZoom newState then s1 else applyState s1 [Field.zoom s1.zoom]
  let s3 := if hasPosition newState then s2 else applyState s2 [Field.position s2.position]
  s3

/-- getState, src/index.js lines 273 to 275, as a pure read of the value. -/
def getState (s : State) : State := s

/-- Every size key of the update is listed before every zoom key: for each
entry, if it is the zoom key then no size key follows it. -/
def sizesBeforeZoom : List Field → Bool
  | [] => true
  | f :: rest => (!(isZoomF f) || !(rest.any isSizeF)) && sizesBeforeZoom rest

/-- The lower pan bound as the design document spells it out: centerOffset
minus overflow, with scaledSize the image axis size times the zoom. -/
def panBoundsDocMin (imageAxisSize containerAxisSize zoom : ℚ) : ℚ :=
  let scaledSize := imageAxisSize * zoom
  let overflow := Max.max (scaledSize - containerAxisSize) 0
  let centerOffset := (scaledSize - imageAxisSize) / 2
  centerOffset - overflow

/-- The upper pan bound as the design document spells it out: the container
axis size plus centerOffset minus scaledSize, plus overflow. -/
def panBoundsDocMax (imageAxisSize containerAxisSize zoom : ℚ) : ℚ :=
  let scaledSize := imageAxisSize * zoom
  let overflow := Max.max (scaledSize - containerAxisSize) 0
  let centerOffset := (scaledSize - imageAxisSize) / 2
  (containerAxisSize + centerOffset - scaledSize) + overflow

/-- A state is legal when its stored zoom and position are fixpoints of
their handlers: re-clamping changes nothing. -/
def Legal (s : State) : Prop :=
  getZoom s s.zoom = s.zoom ∧ getPosition s s.position = s.position

/-- Verbatim merge of one entry with no handler involved: what storing a
supplied value exactly as given denotes. -/
def applyFieldRaw (s : State) : Field → State
  | .position p => { s with position := p }
  | .original d => { s with original := d }
  | .container d => { s with container := d }
  | .zoom z => { s with zoom := z }

/-- Verbatim merge of a whole update, field by field in caller order. -/
def applyStateRaw (s : State) (newState : List Field) : State :=
  newState.foldl applyFieldRaw s

/-- An update whose keys are listed in the canonical order of the design
document: sizes first, then zoom, then position, each key optional. -/
def canonicalFields (o c : Option Dim) (z : Option ℚ) (p : Option Pos) : List Field :=
  (match o with | some d => [Field.original d] | none => []) ++
    (match c with | some d => [Field.container d] | none => []) ++
    (match z with | some zv => [Field.zoom zv] | none => []) ++
    (match p with | some pv => [Field.position pv] | none => [])

/-- Modelled from the spec, section 4.2: the fixed update pipeline. Step 1
merges the provided sizes and runs the zoom handler on a provided zoom and
then the position handler on a provided position; step 2 re-resolves the
stored zoom when none was provided; step 3 re-validates the stored position
when none was provided; the result is committed. -/
def specUpdate (s : State) (o c : Option Dim) (z : Option ℚ) (p : Option Pos) : State :=
  let s1 : State := { s with original := o.getD s.original, container := c.getD s.container }
  let s2 : State := match z with | some zv => { s1 with zoom := getZoom s1 zv } | none => s1
  let s3 : State := match p with | some pv => { s2 with position := getPosition s2 pv } | none => s2
  let s4 : State := match z with | some _ => s3 | none => { s3 with zoom := getZoom s3 s3.zoom }
  match p with | some _ => s4 | none => { s4 with position := getPosition s4 s4.position }

/-- Object identity of the value getState hands back: either the internal
state object of the store, or a fresh defensive copy of it. -/
inductive StateRef where
  | internal
  | copy
  deriving DecidableEq

/-- getState at the level of object identity, src/index.js lines 273 to
275: its body is return state, the internal object itself, so the returned
reference designates the internal object; no copy is constructed. -/
def getStateRef : StateRef := StateRef.internal

/-- The object graph of one instance: the internal state object, and the
caller-side object a defensive copy would have produced. -/
structure InstHeap where
  internalState : State
  copyState : State
  deriving DecidableEq

/-- A caller-side assignment to the zoom field through a reference writes
into whichever object the reference designates. -/
def writeZoom (h : InstHeap) (r : StateRef) (z : ℚ) : InstHeap :=
  match r with
  | .internal => { h with internalState := { h.internalState with zoom := z } }
  | .copy => { h with copyState := { h.copyState with zoom := z } }

/-! ### Bridge lemmas between the JS max/min and the lattice operations -/

theorem jsMax_eq (a b : ℚ) : jsMax a b = Max.max a b := by
  unfold jsMax
  rcases lt_or_ge a b with h | h
  · rw [if_pos h, max_eq_right h.le]
  · rw [if_neg (not_lt.mpr h), max_eq_left h]

theorem jsMin_eq (a b : ℚ) : jsMin a b = Min.min a b := by
  unfold jsMin
  rcases lt_or_ge a b with h | h
  · rw [if_pos h, min_eq_left h.le]
  · rw [if_neg (not_lt.mpr h), min_eq_right h]

theorem le_clamp (value lo hi : ℚ) : lo ≤ clamp value lo hi := by
  rw [clamp, jsMax_eq]
  exact le_max_right _ _

theorem clamp_le (value lo hi : ℚ) (h : lo ≤ hi) : clamp value lo hi ≤ hi := by
  rw [clamp, jsMax_eq, jsMin_eq]
  exact max_le (min_le_right _ _) h

/-! ### The per-axis pan bounds -/

/-- The pan range of one axis is never empty. -/
theorem calcPosMin_le_calcPosMax (zoom originalSize containerSize : ℚ) :
    calcPosMin zoom originalSize containerSize ≤ calcPosMax zoom originalSize containerSize := by
  simp only [calcPosMin, calcPosMax, jsMax_eq]
  rcases le_total (originalSize * zoom - containerSize) 0 with h | h
  · rw [max_eq_right h]
    linarith
  · rw [max_eq_left h]
    linarith

theorem calcPosMin_le_calcPos (zoom pos originalSize containerSize : ℚ) :
    calcPosMin zoom originalSize containerSize ≤ calcPos zoom pos originalSize containerSize :=
  le_clamp _ _ _

theorem calcPos_le_calcPosMax (zoom pos originalSize containerSize : ℚ) :
    calcPos zoom pos originalSize containerSize ≤ calcPosMax zoom originalSize containerSize :=
  clamp_le _ _ _ (calcPosMin_le_calcPosMax zoom originalSize containerSize)

/-- C3. The per-axis pan computation of the source returns exactly the clamp
of the requested position into the bound pair given by the documented
formula. -/
theorem calcPos_matches_doc (pos s c z : ℚ) (_hs : 0 ≤ s) (_hc : 0 ≤ c) :
    calcPos z pos s c = clamp pos (panBoundsDocMin s c z) (panBoundsDocMax s c z) := by
  unfold calcPos
  have hmin : calcPosMin z s c = panBoundsDocMin s c z := by
    simp only [calcPosMin, panBoundsDocMin, jsMax_eq]
  have hmax : calcPosMax z s c = panBoundsDocMax s c z := by
    simp only [calcPosMax, panBoundsDocMax, jsMax_eq]
  rw [hmin, hmax]

/-- Witness for C3 at pos 0, image axis 2, container axis 1, zoom 1. -/
theorem calcPos_matches_doc_witness :
    (0:ℚ) ≤ 2 ∧ (0:ℚ) ≤ 1 ∧
      calcPos 1 0 2 1 = clamp 0 (panBoundsDocMin 2 1 1) (panBoundsDocMax 2 1 1) :=
  ⟨by norm_num, by norm_num, calcPos_matches_doc 0 2 1 1 (by norm_num) (by norm_num)⟩

/-- C10. The pan-bound range is never empty: min is at most max, the clamp
returns a value inside the range, and the width of the range is the gap
between the scaled size and the container size. -/
theorem pan_range_wellformed (pos s c z : ℚ) (_hs : 0 ≤ s) (_hc : 0 ≤ c) (_hz : 0 ≤ z) :
    calcPosMin z s c ≤ calcPosMax z s c ∧
      calcPosMin z s c ≤ calcPos z pos s c ∧
      calcPos z pos s c ≤ calcPosMax z s c ∧
      (s * z ≤ c → calcPosMax z s c - calcPosMin z s c = c - s * z) ∧
      (c ≤ s * z → calcPosMax z s c - calcPosMin z s c = s * z - c) := by
  refine ⟨calcPosMin_le_calcPosMax z s c, calcPosMin_le_calcPos z pos s c,
    calcPos_le_calcPosMax z pos s c, ?_, ?_⟩
  · intro h
    simp only [calcPosMin, calcPosMax, jsMax_eq]
    rw [max_eq_right (by linarith : s * z - c ≤ 0)]
    linarith
  · intro h
    simp only [calcPosMin, calcPosMax, jsMax_eq]
    rw [max_eq_left (by linarith : (0:ℚ) ≤ s * z - c)]
    linarith

/-- Witness for C10 at pos 5, image axis 2, container axis 3, zoom 1. -/
theorem pan_range_wellformed_witness :
    (0:ℚ) ≤ 2 ∧ (0:ℚ) ≤ 3 ∧ (0:ℚ) ≤ 1 ∧
      (calcPosMin 1 2 3 ≤ calcPosMax 1 2 3 ∧
        calcPosMin 1 2 3 ≤ calcPos 1 5 2 3 ∧
        calcPos 1 5 2 3 ≤ calcPosMax 1 2 3 ∧
        ((2:ℚ) * 1 ≤ 3 → calcPosMax 1 2 3 - calcPosMin 1 2 3 = 3 - 2 * 1) ∧
        ((3:ℚ) ≤ 2 * 1 → calcPosMax 1 2 3 - calcPosMin 1 2 3 = 2 * 1 - 3)) :=
  ⟨by norm_num, by norm_num, by norm_num,
    pan_range_wellformed 5 2 3 1 (by norm_num) (by norm_num) (by norm_num)⟩

/-- C5. Covering the container: when the scaled image is at least as wide as
the container on an axis, every pan inside the bound range places the
rendered interval over the whole container interval. The rendered interval
starts at the pan minus centerOffset because scaling is anchored at the
center of the image. -/
theorem pan_in_range_covers (p s c z : ℚ) (_hs : 0 < s) (_hc : 0 < c) (hcov : c ≤ s * z)
    (hmin : calcPosMin z s c ≤ p) (hmax : p ≤ calcPosMax z s c) :
    p - (s * z - s) / 2 ≤ 0 ∧ c ≤ (p - (s * z - s) / 2) + s * z := by
  simp only [calcPosMin, calcPosMax, jsMax_eq] at hmin hmax
  rw [max_eq_left (by linarith : (0:ℚ) ≤ s * z - c)] at hmin hmax
  constructor <;> linarith

/-! ### Structural lemmas about applyState and setState -/

theorem applyState_nil (s : State) : applyState s [] = s := rfl

theorem applyState_cons (s : State) (f : Field) (rest : List Field) :
    applyState s (f :: rest) = applyState (applyField s f) rest := rfl

theorem applyState_append (s : State) (a b : List Field) :
    applyState s (a ++ b) = applyState (applyState s a) b :=
  List.foldl_append _ _ _ _

theorem applyState_single (s : State) (f : Field) : applyState s [f] = applyField s f := rfl

/-- A run of position entries touches neither the zoom nor the sizes. -/
theorem applyState_posOnly (ns : List Field) (h : ns.all isPositionF = true) :
    ∀ s : State, (applyState s ns).zoom = s.zoom ∧ (applyState s ns).original = s.original ∧
      (applyState s ns).container = s.container := by
  induction ns with
  | nil => exact fun s => ⟨rfl, rfl, rfl⟩
  | cons f rest ih =>
    rw [List.all_cons, Bool.and_eq_true] at h
    intro s
    cases f with
    | position p => exact ih h.2 (applyField s (.position p))
    | original d => simp [isPositionF] at h
    | container d => simp [isPositionF] at h
    | zoom z => simp [isPositionF] at h

/-- An update with no zoom key and no size key is all position entries. -/
theorem all_position_of_no_zoom_no_size (ns : List Field) (hz : ns.any isZoomF = false)
    (hs : ns.any isSizeF = false) : ns.all isPositionF = true := by
  induction ns with
  | nil => rfl
  | cons f rest ih =>
    rw [List.any_cons, Bool.or_eq_false_iff] at hz hs
    rw [List.all_cons, Bool.and_eq_true]
    refine ⟨?_, ih hz.2 hs.2⟩
    cases f with
    | position p => rfl
    | original d => exact absurd hs.1 (by simp [isSizeF])
    | container d => exact absurd hs.1 (by simp [isSizeF])
    | zoom z => exact absurd hz.1 (by simp [isZoomF])

/-- When the original size is measured, getZoom yields at least minZoom. -/
theorem minZoom_le_getZoom (s : State) (z : ℚ) (hw : s.original.width ≠ 0)
    (hh : s.original.height ≠ 0) : minZoom s.original s.container ≤ getZoom s z := by
  rw [getZoom, if_neg (not_or.mpr ⟨hw, hh⟩), jsMax_eq]
  exact le_max_right _ _

/-- When the original size is measured, getPosition lands inside the pan
bounds computed from the state it was called with. -/
theorem getPosition_mem (t : State) (p : Pos) (hw : t.original.width ≠ 0)
    (hh : t.original.height ≠ 0) :
    calcPosMin t.zoom t.original.width t.container.width ≤ (getPosition t p).x ∧
      (getPosition t p).x ≤ calcPosMax t.zoom t.original.width t.container.width ∧
      calcPosMin t.zoom t.original.height t.container.height ≤ (getPosition t p).y ∧
      (getPosition t p).y ≤ calcPosMax t.zoom t.original.height t.container.height := by
  rw [getPosition, if_neg (not_or.mpr ⟨hw, hh⟩)]
  exact ⟨calcPosMin_le_calcPos _ _ _ _, calcPos_le_calcPosMax _ _ _ _,
    calcPosMin_le_calcPos _ _ _ _, calcPos_le_calcPosMax _ _ _ _⟩

theorem setState_original_eq (s : State) (ns : List Field) :
    (setState s ns).original = (applyState s ns).original := by
  by_cases h1 : hasZoom ns = true <;> by_cases h2 : hasPosition ns = true <;>
    simp [setState, h1, h2, applyState_single, applyField]

theorem setState_container_eq (s : State) (ns : List Field) :
    (setState s ns).container = (applyState s ns).container := by
  by_cases h1 : hasZoom ns = true <;> by_cases h2 : hasPosition ns = true <;>
    simp [setState, h1, h2, applyState_single, applyField]

theorem setState_zoom_of_hasZoom (s : State) (ns : List Field) (h : hasZoom ns = true) :
    (setState s ns).zoom = (applyState s ns).zoom := by
  by_cases h2 : hasPosition ns = true <;>
    simp [setState, h, h2, applyState_single, applyField]

theorem setState_zoom_of_not_hasZoom (s : State) (ns : List Field) (h : hasZoom ns = false) :
    (setState s ns).zoom = getZoom (applyState s ns) (applyState s ns).zoom := by
  by_cases h2 : hasPosition ns = true <;>
    simp [setState, h, h2, applyState_single, applyField]

/-- Zoom floor along the for-in loop itself, provided every size key comes
before every zoom key and the update carries a zoom key. -/
theorem applyState_zoom_floor (ns : List Field) :
    ∀ s : State, hasZoom ns = true → sizesBeforeZoom ns = true →
      (applyState s ns).original.width ≠ 0 → (applyState s ns).original.height ≠ 0 →
      minZoom (applyState s ns).original (applyState s ns).container ≤ (applyState s ns).zoom := by
  induction ns with
  | nil => intro s h; simp [hasZoom] at h
  | cons f rest ih =>
    intro s hz hord hw hh
    simp only [sizesBeforeZoom, Bool.and_eq_true, Bool.or_eq_true, Bool.not_eq_true] at hord
    obtain ⟨hord1, hordr⟩ := hord
    by_cases hzr : hasZoom rest = true
    · exact ih (applyField s f) hzr hordr hw hh
    · have hzr' : rest.any isZoomF = false := by
        rw [hasZoom] at hzr
        revert hzr
        cases rest.any isZoomF <;> simp
      have hf : isZoomF f = true := by
        rw [hasZoom, List.any_cons, Bool.or_eq_true] at hz
        rcases hz with hf | hr
        · exact hf
        · exact absurd hr (by simp [hzr'])
      obtain ⟨z, rfl⟩ : ∃ z, f = Field.zoom z := by
        cases f <;> simp [isZoomF] at hf ⊢
      have hnosize : rest.any isSizeF = false := by
        rcases hord1 with h1 | h2
        · rw [hf] at h1; exact absurd h1 (by simp)
        · simpa using h2
      have hall := all_position_of_no_zoom_no_size rest hzr' hnosize
      obtain ⟨e1, e2, e3⟩ := applyState_posOnly rest hall (applyField s (.zoom z))
      rw [applyState_cons] at hw hh ⊢
      rw [e2] at hw hh
      rw [e1, e2, e3]
      exact minZoom_le_getZoom s z hw hh

/-- C1, amended. Zoom floor: after a setState call in which every size key
is listed before every zoom key (in particular after any call carrying no
zoom key at all), whenever the post-update image and container sizes are
positive, the stored zoom is at least minZoom of the stored sizes. -/
theorem zoom_floor (s : State) (ns : List Field) (hord : sizesBeforeZoom ns = true)
    (hw : 0 < (setState s ns).original.width) (hh : 0 < (setState s ns).original.height)
    (_hcw : 0 < (setState s ns).container.width)
    (_hch : 0 < (setState s ns).container.height) :
    minZoom (setState s ns).original (setState s ns).container ≤ (setState s ns).zoom := by
  have hw1 : (applyState s ns).original.width ≠ 0 := by
    rw [setState_original_eq] at hw
    exact ne_of_gt hw
  have hh1 : (applyState s ns).original.height ≠ 0 := by
    rw [setState_original_eq] at hh
    exact ne_of_gt hh
  rw [setState_original_eq, setState_container_eq]
  by_cases hz : hasZoom ns = true
  · rw [setState_zoom_of_hasZoom s ns hz]
    exact applyState_zoom_floor ns s hz hord hw1 hh1
  · have hz' : hasZoom ns = false := by
      revert hz
      cases hasZoom ns <;> simp
    rw [setState_zoom_of_not_hasZoom s ns hz']
    exact minZoom_le_getZoom (applyState s ns) _ hw1 hh1

/-- Witness for C1 amended: sizes 100x100 merged before the zoom key, so
the requested zoom 3 is kept only because it already exceeds minZoom 5
does not hold; it is raised to 5, which satisfies the floor. -/
theorem zoom_floor_witness :
    minZoom (setState ⟨⟨0, 0⟩, ⟨2000, 1000⟩, ⟨500, 500⟩, 1⟩
        [Field.original ⟨100, 100⟩, Field.zoom 3]).original
      (setState ⟨⟨0, 0⟩, ⟨2000, 1000⟩, ⟨500, 500⟩, 1⟩
        [Field.original ⟨100, 100⟩, Field.zoom 3]).container ≤
      (setState ⟨⟨0, 0⟩, ⟨2000, 1000⟩, ⟨500, 500⟩, 1⟩
        [Field.original ⟨100, 100⟩, Field.zoom 3]).zoom :=
  zoom_floor ⟨⟨0, 0⟩, ⟨2000, 1000⟩, ⟨500, 500⟩, 1⟩ [Field.original ⟨100, 100⟩, Field.zoom 3]
    (by rfl)
    (by norm_num [setState, applyState, applyField, getZoom, getPosition, minZoom, calcPos,
      calcPosMin, calcPosMax, clamp, jsMax, jsMin, hasZoom, hasPosition, isZoomF, isPositionF])
    (by norm_num [setState, applyState, applyField, getZoom, getPosition, minZoom, calcPos,
      calcPosMin, calcPosMax, clamp, jsMax, jsMin, hasZoom, hasPosition, isZoomF, isPositionF])
    (by norm_num [setState, applyState, applyField, getZoom, getPosition, minZoom, calcPos,
      calcPosMin, calcPosMax, clamp, jsMax, jsMin, hasZoom, hasPosition, isZoomF, isPositionF])
    (by norm_num [setState, applyState, applyField, getZoom, getPosition, minZoom, calcPos,
      calcPosMin, calcPosMax, clamp, jsMax, jsMin, hasZoom, hasPosition, isZoomF, isPositionF])

/-- Counterexample to C1 as stated: in the single call that lists the zoom
key before the original key, both the pre-update and post-update sizes are
positive, yet the stored zoom 3 ends below minZoom 5 of the stored sizes,
because the zoom handler ran against the stale original size 2000x1000. -/
theorem zoom_floor_cex :
    0 < (setState ⟨⟨0, 0⟩, ⟨2000, 1000⟩, ⟨500, 500⟩, 1⟩
        [Field.zoom 3, Field.original ⟨100, 100⟩]).original.width ∧
      0 < (setState ⟨⟨0, 0⟩, ⟨2000, 1000⟩, ⟨500, 500⟩, 1⟩
        [Field.zoom 3, Field.original ⟨100, 100⟩]).original.height ∧
      0 < (setState ⟨⟨0, 0⟩, ⟨2000, 1000⟩, ⟨500, 500⟩, 1⟩
        [Field.zoom 3, Field.original ⟨100, 100⟩]).container.width ∧
      0 < (setState ⟨⟨0, 0⟩, ⟨2000, 1000⟩, ⟨500, 500⟩, 1⟩
        [Field.zoom 3, Field.original ⟨100, 100⟩]).container.height ∧
      (setState ⟨⟨0, 0⟩, ⟨2000, 1000⟩, ⟨500, 500⟩, 1⟩
        [Field.zoom 3, Field.original ⟨100, 100⟩]).zoom <
        minZoom (setState ⟨⟨0, 0⟩, ⟨2000, 1000⟩, ⟨500, 500⟩, 1⟩
          [Field.zoom 3, Field.original ⟨100, 100⟩]).original
          (setState ⟨⟨0, 0⟩, ⟨2000, 1000⟩, ⟨500, 500⟩, 1⟩
            [Field.zoom 3, Field.original ⟨100, 100⟩]).container := by
  norm_num [setState, applyState, applyField, getZoom, getPosition, minZoom, calcPos,
    calcPosMin, calcPosMax, clamp, jsMax, jsMin, hasZoom, hasPosition, isZoomF, isPositionF]

/-- The setState result when the update carries no position key: the stored
position is re-validated last, against the state holding the final zoom and
sizes. -/
theorem setState_shape_no_position (s : State) (ns : List Field)
    (h : hasPosition ns = false) :
    ∃ t : State, setState s ns = { t with position := getPosition t t.position } := by
  by_cases h1 : hasZoom ns = true
  · refine ⟨applyState s ns, ?_⟩
    simp [setState, h, h1, applyState_single, applyField]
  · refine ⟨applyField (applyState s ns) (.zoom (applyState s ns).zoom), ?_⟩
    simp [setState, h, h1, applyState_single, applyField]

/-- C2, amended. Pan containment: after a setState call that either carries
no position key (the stored position is then re-validated against the final
zoom and sizes), or carries a zoom key and lists the position key last,
whenever the post-update sizes are positive the stored position lies inside
the pan bounds computed from the post-update zoom and sizes. -/
theorem pan_containment (s : State) (ns : List Field)
    (hord : hasPosition ns = false ∨
      ∃ a p, ns = a ++ [Field.position p] ∧ hasZoom ns = true)
    (hw : 0 < (setState s ns).original.width) (hh : 0 < (setState s ns).original.height)
    (_hcw : 0 < (setState s ns).container.width)
    (_hch : 0 < (setState s ns).container.height) :
    calcPosMin (setState s ns).zoom (setState s ns).original.width
        (setState s ns).container.width ≤ (setState s ns).position.x ∧
      (setState s ns).position.x ≤ calcPosMax (setState s ns).zoom
        (setState s ns).original.width (setState s ns).container.width ∧
      calcPosMin (setState s ns).zoom (setState s ns).original.height
        (setState s ns).container.height ≤ (setState s ns).position.y ∧
      (setState s ns).position.y ≤ calcPosMax (setState s ns).zoom
        (setState s ns).original.height (setState s ns).container.height := by
  rcases hord with hnp | ⟨a, p, rfl, hz⟩
  · obtain ⟨t, e⟩ := setState_shape_no_position s ns hnp
    rw [e] at hw hh ⊢
    exact getPosition_mem t t.position (ne_of_gt hw) (ne_of_gt hh)
  · have hp : hasPosition (a ++ [Field.position p]) = true := by
      simp [hasPosition, isPositionF]
    have e : setState s (a ++ [Field.position p]) =
        { applyState s a with position := getPosition (applyState s a) p } := by
      simp [setState, hp, hz, applyState_append, applyState_single, applyField]
    rw [e] at hw hh ⊢
    exact getPosition_mem (applyState s a) p (ne_of_gt hw) (ne_of_gt hh)

/-- Witness for C2 amended: the empty update on a measured square state;
the stored position is re-clamped and lands inside the bounds. -/
theorem pan_containment_witness :
    calcPosMin (setState ⟨⟨0, 0⟩, ⟨1, 1⟩, ⟨1, 1⟩, 1⟩ []).zoom
        (setState ⟨⟨0, 0⟩, ⟨1, 1⟩, ⟨1, 1⟩, 1⟩ []).original.width
        (setState ⟨⟨0, 0⟩, ⟨1, 1⟩, ⟨1, 1⟩, 1⟩ []).container.width ≤
      (setState ⟨⟨0, 0⟩, ⟨1, 1⟩, ⟨1, 1⟩, 1⟩ []).position.x ∧
      (setState ⟨⟨0, 0⟩, ⟨1, 1⟩, ⟨1, 1⟩, 1⟩ []).position.x ≤
        calcPosMax (setState ⟨⟨0, 0⟩, ⟨1, 1⟩, ⟨1, 1⟩, 1⟩ []).zoom
          (setState ⟨⟨0, 0⟩, ⟨1, 1⟩, ⟨1, 1⟩, 1⟩ []).original.width
          (setState ⟨⟨0, 0⟩, ⟨1, 1⟩, ⟨1, 1⟩, 1⟩ []).container.width ∧
      calcPosMin (setState ⟨⟨0, 0⟩, ⟨1, 1⟩, ⟨1, 1⟩, 1⟩ []).zoom
          (setState ⟨⟨0, 0⟩, ⟨1, 1⟩, ⟨1, 1⟩, 1⟩ []).original.height
          (setState ⟨⟨0, 0⟩, ⟨1, 1⟩, ⟨1, 1⟩, 1⟩ []).container.height ≤
        (setState ⟨⟨0, 0⟩, ⟨1, 1⟩, ⟨1, 1⟩, 1⟩ []).position.y ∧
      (setState ⟨⟨0, 0⟩, ⟨1, 1⟩, ⟨1, 1⟩, 1⟩ []).position.y ≤
        calcPosMax (setState ⟨⟨0, 0⟩, ⟨1, 1⟩, ⟨1, 1⟩, 1⟩ []).zoom
          (setState ⟨⟨0, 0⟩, ⟨1, 1⟩, ⟨1, 1⟩, 1⟩ []).original.height
          (setState ⟨⟨0, 0⟩, ⟨1, 1⟩, ⟨1, 1⟩, 1⟩ []).container.height :=
  pan_containment ⟨⟨0, 0⟩, ⟨1, 1⟩, ⟨1, 1⟩, 1⟩ [] (Or.inl rfl)
    (by norm_num [setState, applyState, applyField, getZoom, getPosition, minZoom, calcPos,
      calcPosMin, calcPosMax, clamp, jsMax, jsMin, hasZoom, hasPosition, isZoomF, isPositionF])
    (by norm_num [setState, applyState, applyField, getZoom, getPosition, minZoom, calcPos,
      calcPosMin, calcPosMax, clamp, jsMax, jsMin, hasZoom, hasPosition, isZoomF, isPositionF])
    (by norm_num [setState, applyState, applyField, getZoom, getPosition, minZoom, calcPos,
      calcPosMin, calcPosMax, clamp, jsMax, jsMin, hasZoom, hasPosition, isZoomF, isPositionF])
    (by norm_num [setState, applyState, applyField, getZoom, getPosition, minZoom, calcPos,
      calcPosMin, calcPosMax, clamp, jsMax, jsMin, hasZoom, hasPosition, isZoomF, isPositionF])

/-- Counterexample to C2 as stated: a single call that grows the container
and supplies a position, with no zoom key. The position handler runs before
the stored zoom is re-resolved against the larger container, so the stored
pan -250 ends below the recomputed x lower bound -100. -/
theorem pan_containment_cex :
    0 < (setState ⟨⟨-250, -250⟩, ⟨1000, 1000⟩, ⟨500, 500⟩, 1/2⟩
        [Field.container ⟨800, 800⟩, Field.position ⟨-250, -250⟩]).original.width ∧
      0 < (setState ⟨⟨-250, -250⟩, ⟨1000, 1000⟩, ⟨500, 500⟩, 1/2⟩
        [Field.container ⟨800, 800⟩, Field.position ⟨-250, -250⟩]).original.height ∧
      0 < (setState ⟨⟨-250, -250⟩, ⟨1000, 1000⟩, ⟨500, 500⟩, 1/2⟩
        [Field.container ⟨800, 800⟩, Field.position ⟨-250, -250⟩]).container.width ∧
      0 < (setState ⟨⟨-250, -250⟩, ⟨1000, 1000⟩, ⟨500, 500⟩, 1/2⟩
        [Field.container ⟨800, 800⟩, Field.position ⟨-250, -250⟩]).container.height ∧
      (setState ⟨⟨-250, -250⟩, ⟨1000, 1000⟩, ⟨500, 500⟩, 1/2⟩
        [Field.container ⟨800, 800⟩, Field.position ⟨-250, -250⟩]).position.x <
        calcPosMin (setState ⟨⟨-250, -250⟩, ⟨1000, 1000⟩, ⟨500, 500⟩, 1/2⟩
          [Field.container ⟨800, 800⟩, Field.position ⟨-250, -250⟩]).zoom
          (setState ⟨⟨-250, -250⟩, ⟨1000, 1000⟩, ⟨500, 500⟩, 1/2⟩
            [Field.container ⟨800, 800⟩, Field.position ⟨-250, -250⟩]).original.width
          (setState ⟨⟨-250, -250⟩, ⟨1000, 1000⟩, ⟨500, 500⟩, 1/2⟩
            [Field.container ⟨800, 800⟩, Field.position ⟨-250, -250⟩]).container.width := by
  norm_num [setState, applyState, applyField, getZoom, getPosition, minZoom, calcPos,
    calcPosMin, calcPosMax, clamp, jsMax, jsMin, hasZoom, hasPosition, isZoomF, isPositionF]

/-- Witness for C5 at pan -1, image axis 2, container axis 1, zoom 1. -/
theorem pan_in_range_covers_witness :
    (0:ℚ) < 2 ∧ (0:ℚ) < 1 ∧ (1:ℚ) ≤ 2 * 1 ∧
      calcPosMin 1 2 1 ≤ -1 ∧ (-1:ℚ) ≤ calcPosMax 1 2 1 ∧
      ((-1:ℚ) - (2 * 1 - 2) / 2 ≤ 0 ∧ (1:ℚ) ≤ ((-1) - (2 * 1 - 2) / 2) + 2 * 1) :=
  ⟨by norm_num, by norm_num, by norm_num,
    by norm_num [calcPosMin, jsMax], by norm_num [calcPosMax, jsMax],
    pan_in_range_covers (-1) 2 1 1 (by norm_num) (by norm_num) (by norm_num)
      (by norm_num [calcPosMin, jsMax]) (by norm_num [calcPosMax, jsMax])⟩

/-- C4, amended. Entries are processed in the order the caller lists them;
when the keys are listed in the canonical order (sizes, then zoom, then
position), and with absent keys re-validated afterwards (zoom first, then
position), setState implements exactly the fixed pipeline of the design
document. -/
theorem setState_canonical (s : State) (o c : Option Dim) (z : Option ℚ) (p : Option Pos) :
    setState s (canonicalFields o c z p) = specUpdate s o c z p := by
  cases o <;> cases c <;> cases z <;> cases p <;>
    simp [setState, canonicalFields, specUpdate, applyState, applyField,
      hasZoom, hasPosition, isZoomF, isPositionF, Option.getD]

/-- Counterexample to C4 as stated: two calls carrying the same zoom and
original entries, differing only in the order the caller lists the keys,
commit different states; so the size merge does not always happen before
the zoom handler runs. -/
theorem setState_order_dependent_cex :
    setState ⟨⟨0, 0⟩, ⟨2000, 1000⟩, ⟨500, 500⟩, 1⟩
        [Field.zoom 3, Field.original ⟨100, 100⟩] ≠
      setState ⟨⟨0, 0⟩, ⟨2000, 1000⟩, ⟨500, 500⟩, 1⟩
        [Field.original ⟨100, 100⟩, Field.zoom 3] := by
  norm_num [setState, applyState, applyField, getZoom, getPosition, minZoom, calcPos,
    calcPosMin, calcPosMax, clamp, jsMax, jsMin, hasZoom, hasPosition, isZoomF, isPositionF,
    State.mk.injEq, Pos.mk.injEq, Dim.mk.injEq]

/-- C6. Idempotence: on a legal state, the empty update commits the state
unchanged. -/
theorem update_empty_idempotent (s : State) (h : Legal s) : setState s [] = s := by
  obtain ⟨hz, hp⟩ := h
  simp [setState, hasZoom, hasPosition, applyState_nil, applyState_single, applyField, hz, hp]

/-- Witness for C6 on the measured legal state with unit sizes. -/
theorem update_empty_idempotent_witness :
    Legal ⟨⟨0, 0⟩, ⟨1, 1⟩, ⟨1, 1⟩, 1⟩ ∧
      setState ⟨⟨0, 0⟩, ⟨1, 1⟩, ⟨1, 1⟩, 1⟩ [] = ⟨⟨0, 0⟩, ⟨1, 1⟩, ⟨1, 1⟩, 1⟩ :=
  ⟨by
    constructor <;>
      norm_num [Legal, getZoom, getPosition, minZoom, calcPos, calcPosMin, calcPosMax,
        clamp, jsMax, jsMin],
    update_empty_idempotent ⟨⟨0, 0⟩, ⟨1, 1⟩, ⟨1, 1⟩, 1⟩
      (by
        constructor <;>
          norm_num [Legal, getZoom, getPosition, minZoom, calcPos, calcPosMin, calcPosMax,
            clamp, jsMax, jsMin])⟩

/-- While the original size stays unset and the update carries no original
key, the for-in loop stores every supplied value verbatim, and the original
size is unchanged. -/
theorem applyState_unset_raw (ns : List Field) :
    ∀ s : State, s.original.width = 0 ∨ s.original.height = 0 →
      ns.all (fun f => !(isOriginalF f)) = true →
      applyState s ns = applyStateRaw s ns ∧ (applyStateRaw s ns).original = s.original := by
  induction ns with
  | nil => exact fun s _ _ => ⟨rfl, rfl⟩
  | cons f rest ih =>
    intro s h0 h1
    rw [List.all_cons, Bool.and_eq_true] at h1
    obtain ⟨hf, hrest⟩ := h1
    cases f with
    | original d => simp [isOriginalF] at hf
    | position p =>
      have e : applyField s (.position p) = applyFieldRaw s (.position p) := by
        simp [applyField, applyFieldRaw, getPosition, if_pos h0]
      have step := ih (applyFieldRaw s (.position p)) h0 hrest
      rw [applyState_cons, e]
      exact step
    | container d =>
      have step := ih (applyFieldRaw s (.container d)) h0 hrest
      rw [applyState_cons]
      exact step
    | zoom z =>
      have e : applyField s (.zoom z) = applyFieldRaw s (.zoom z) := by
        simp [applyField, applyFieldRaw, getZoom, if_pos h0]
      have step := ih (applyFieldRaw s (.zoom z)) h0 hrest
      rw [applyState_cons, e]
      exact step

/-- C7, amended. Unmeasured pass-through: while the stored image size is
unset and the update itself carries no original key, setState stores every
supplied value exactly as given, with no clamping. -/
theorem unmeasured_passthrough (s : State) (ns : List Field)
    (h0 : s.original.width = 0 ∨ s.original.height = 0)
    (h1 : ns.all (fun f => !(isOriginalF f)) = true) :
    setState s ns = applyStateRaw s ns := by
  obtain ⟨e, horig⟩ := applyState_unset_raw ns s h0 h1
  have h0' : (applyState s ns).original.width = 0 ∨
      (applyState s ns).original.height = 0 := by
    rw [e, horig]
    exact h0
  have egz : getZoom (applyStateRaw s ns) (applyStateRaw s ns).zoom =
      (applyStateRaw s ns).zoom := by
    rw [← e, getZoom, if_pos h0']
  have egp : getPosition (applyStateRaw s ns) (applyStateRaw s ns).position =
      (applyStateRaw s ns).position := by
    rw [← e, getPosition, if_pos h0']
  by_cases hz : hasZoom ns = true <;> by_cases hp : hasPosition ns = true <;>
    simp [setState, hz, hp, applyState_single, applyField, e, egz, egp]

/-- Witness for C7 amended: with the image not yet measured, the update
carrying zoom 5 stores exactly 5. -/
theorem unmeasured_passthrough_witness :
    setState ⟨⟨0, 0⟩, ⟨0, 0⟩, ⟨500, 500⟩, 1⟩ [Field.zoom 5] =
        applyStateRaw ⟨⟨0, 0⟩, ⟨0, 0⟩, ⟨500, 500⟩, 1⟩ [Field.zoom 5] ∧
      (applyStateRaw ⟨⟨0, 0⟩, ⟨0, 0⟩, ⟨500, 500⟩, 1⟩ [Field.zoom 5]).zoom = 5 :=
  ⟨unmeasured_passthrough ⟨⟨0, 0⟩, ⟨0, 0⟩, ⟨500, 500⟩, 1⟩ [Field.zoom 5]
      (Or.inl rfl) (by rfl),
    by norm_num [applyStateRaw, applyFieldRaw]⟩

/-- Counterexample to C7 as stated: the image size is unset when the call
starts, yet the supplied zoom 1/10 is not stored as given, because the same
call also supplies an original size, listed first, and the zoom handler
then clamps against it to 5. -/
theorem unmeasured_passthrough_cex :
    (⟨⟨0, 0⟩, ⟨0, 0⟩, ⟨500, 500⟩, 1⟩ : State).original.width = 0 ∧
      (setState ⟨⟨0, 0⟩, ⟨0, 0⟩, ⟨500, 500⟩, 1⟩
        [Field.original ⟨100, 100⟩, Field.zoom (1/10)]).zoom ≠ 1/10 := by
  norm_num [setState, applyState, applyField, getZoom, getPosition, minZoom, calcPos,
    calcPosMin, calcPosMax, clamp, jsMax, jsMin, hasZoom, hasPosition, isZoomF, isPositionF]

/-- C8. The documented scenario: image 2000x1000, container 500x500. A
requested zoom 0.1 is stored as 0.25; at zoom 0.25 the x bounds collapse to
-750 and every requested x clamps there; the y bounds are -375 and -125 and
a requested y of 1000 is stored as -125. -/
theorem scenario_2000x1000 :
    (setState ⟨⟨0, 0⟩, ⟨2000, 1000⟩, ⟨500, 500⟩, 1⟩ [Field.zoom (1/10)]).zoom = 1/4 ∧
      calcPosMin (1/4) 2000 500 = -750 ∧ calcPosMax (1/4) 2000 500 = -750 ∧
      (∀ px : ℚ, calcPos (1/4) px 2000 500 = -750) ∧
      calcPosMin (1/4) 1000 500 = -375 ∧ calcPosMax (1/4) 1000 500 = -125 ∧
      calcPos (1/4) 1000 1000 500 = -125 ∧
      (setState ⟨⟨0, 0⟩, ⟨2000, 1000⟩, ⟨500, 500⟩, 1/4⟩
        [Field.position ⟨0, 1000⟩]).position = ⟨-750, -125⟩ := by
  refine ⟨?_, ?_, ?_, ?_, ?_, ?_, ?_, ?_⟩
  · norm_num [setState, applyState, applyField, getZoom, getPosition, minZoom, calcPos,
      calcPosMin, calcPosMax, clamp, jsMax, jsMin, hasZoom, hasPosition, isZoomF, isPositionF]
  · norm_num [calcPosMin, jsMax]
  · norm_num [calcPosMax, jsMax]
  · intro px
    have h1 : calcPosMin (1/4) 2000 500 = -750 := by norm_num [calcPosMin, jsMax]
    have h2 : calcPosMax (1/4) 2000 500 = -750 := by norm_num [calcPosMax, jsMax]
    rw [calcPos, h1, h2, clamp, jsMin_eq, jsMax_eq]
    exact max_eq_right (min_le_right _ _)
  · norm_num [calcPosMin, jsMax]
  · norm_num [calcPosMax, jsMax]
  · norm_num [calcPos, calcPosMin, calcPosMax, clamp, jsMax, jsMin]
  · norm_num [setState, applyState, applyField, getZoom, getPosition, minZoom, calcPos,
      calcPosMin, calcPosMax, clamp, jsMax, jsMin, hasZoom, hasPosition, isZoomF, isPositionF]

/-- C9, amended. getState returns the internal state object itself, not a
copy: the reference it hands back designates the internal object, so a
caller-side write through that reference lands in the store, and the value
read back is the internal state. -/
theorem getState_returns_internal (h : InstHeap) (z : ℚ) :
    (writeZoom h getStateRef z).internalState = { h.internalState with zoom := z } ∧
      getState h.internalState = h.internalState :=
  ⟨rfl, rfl⟩

/-- Counterexample to C9 as stated: writing zoom 99 through the reference
getState returns changes the internal state of the store. -/
theorem getState_snapshot_cex :
    (writeZoom ⟨⟨⟨0, 0⟩, ⟨0, 0⟩, ⟨0, 0⟩, 1⟩, ⟨⟨0, 0⟩, ⟨0, 0⟩, ⟨0, 0⟩, 1⟩⟩
        getStateRef 99).internalState ≠
      (⟨⟨⟨0, 0⟩, ⟨0, 0⟩, ⟨0, 0⟩, 1⟩, ⟨⟨0, 0⟩, ⟨0, 0⟩, ⟨0, 0⟩, 1⟩⟩ : InstHeap).internalState := by
  norm_num [writeZoom, getStateRef, State.mk.injEq]

end Rogneur
